import Mathlib

/-!
# Verification of the Karl Eido triangular-grid demo (src/karl-eido.c)

A shallow embedding of the rendering/geometry core of `src/karl-eido.c`:

* C `int` arithmetic is modelled by `Int`; C truncating division and
  remainder (`/`, `%`) are `Int.tdiv` / `Int.tmod` (named `cdiv` / `cmod`
  below).  The programs under verification only compute with values far
  below `2^31`, where C `int` arithmetic and `Int` agree.
* C `float` (IEEE-754 binary32, round to nearest, ties to even) is
  modelled exactly by dyadic numbers `F32` (a value `m * 2^e`), with a
  rounding function that reproduces binary32 rounding for the normal
  range.  All float operations in the source (literal conversion,
  int-to-float conversion, `*`, `/`, `-`, comparisons, truncating casts
  to `int`) are given exact counterparts.
* The host canvas is modelled by the list of pixels a drawing function
  emits, in emission order; `rand()` is modelled by an arbitrary stream
  `Nat → Nat` of non-negative values (the C `rand` returns values in
  `[0, RAND_MAX]`; only remainders of these values are used).
* Loops are embedded as fuel-based structural recursions; the Bresenham
  loop of `canvas_draw_line_dash_dot`, whose source form is `while(true)`,
  returns `none` when the fuel is exhausted, and its termination theorem
  shows a concrete sufficient fuel.
-/

namespace KarlEido

/-- C truncating division (the semantics of `/` on C ints). -/
def cdiv (a b : Int) : Int := Int.tdiv a b

/-- C remainder (the semantics of `%` on C ints). -/
def cmod (a b : Int) : Int := Int.tmod a b

/-- A point, as in the C `Point` struct: integer pixel coordinates. -/
structure Point where
  x : Int
  y : Int
deriving DecidableEq, Repr

/-- A triangle's three vertices (the C code passes `Point vertices[3]`). -/
structure Tri where
  v0 : Point
  v1 : Point
  v2 : Point
deriving DecidableEq, Repr

/-! ## Exact model of IEEE-754 binary32 arithmetic

A float value is represented as `m * 2^e` with `m e : Int`.  The
representation is not normalised; only the denoted value matters.
Rounding to 24 significant bits with ties to even is implemented with
pure `Nat`/`Int` arithmetic so that every concrete computation reduces
inside the kernel (`decide`).  Subnormals and overflow are not modelled;
every quantity occurring in this program is well inside the normal
binary32 range. -/

/-- Dyadic model of a binary32 value: `m * 2^e`. -/
structure F32 where
  m : Int
  e : Int
deriving DecidableEq, Repr

/-- Round `p / q` (`q > 0`) to the nearest integer, ties to even. -/
def rne (p q : Nat) : Nat :=
  let d := p / q
  let r := p % q
  if 2 * r < q then d
  else if q < 2 * r then d + 1
  else if d % 2 = 0 then d else d + 1

/-- Fuel-based base-2 logarithm (structural recursion, kernel-reducible):
`lg2 fuel n = ⌊log2 n⌋` whenever `n < 2^fuel` and `1 ≤ n`. -/
def lg2 : Nat → Nat → Nat
  | 0, _ => 0
  | fuel + 1, n => if 2 ≤ n then lg2 fuel (n / 2) + 1 else 0

/-- Computes `⌊log2 (a / b)⌋` for positive naturals, computed by scaling with
`2^128` (every value rounded in this development lies well inside
`[2^-128, 2^128]`). -/
def log2floorQ (a b : Nat) : Int := (lg2 400 (a * 2 ^ 128 / b) : Int) - 128

/-- Round the positive rational `a / b` to binary32 (nearest, ties to
even), as a dyadic number. -/
def roundPosF (a b : Nat) : F32 :=
  let E := log2floorQ a b
  let sh := 23 - E
  let m := if 0 ≤ sh then rne (a * 2 ^ sh.toNat) b else rne a (b * 2 ^ (-sh).toNat)
  ⟨(m : Int), E - 23⟩

/-- Round the rational `num / den` (`den > 0`) to binary32. -/
def roundF32 (num den : Int) : F32 :=
  if num = 0 then ⟨0, 0⟩
  else if 0 < num then roundPosF num.toNat den.toNat
  else
    let r := roundPosF (-num).toNat den.toNat
    ⟨-r.m, r.e⟩

namespace F32

/-- The denoted rational value of a dyadic float. -/
def toRat (x : F32) : ℚ := (x.m : ℚ) * (2 : ℚ) ^ x.e

/-- Conversion of a C `int` to `float` (rounds when `|n| ≥ 2^24`). -/
def ofInt (n : Int) : F32 := roundF32 n 1

/-- The float literal `1.0f`. -/
def one : F32 := ⟨1, 0⟩

/-- The float literal `0.0f`. -/
def zero : F32 := ⟨0, 0⟩

/-- Float multiplication: the exact product, rounded once. -/
def mul (x y : F32) : F32 :=
  let e := x.e + y.e
  if 0 ≤ e then roundF32 (x.m * y.m * 2 ^ e.toNat) 1
  else roundF32 (x.m * y.m) (2 ^ (-e).toNat)

/-- Float division: the exact quotient, rounded once. -/
def div (x y : F32) : F32 :=
  let d := x.e - y.e
  let num := if 0 ≤ d then x.m * 2 ^ d.toNat else x.m
  let den := if 0 ≤ d then y.m else y.m * 2 ^ (-d).toNat
  if 0 < den then roundF32 num den else roundF32 (-num) (-den)

/-- Float subtraction: the exact difference, rounded once. -/
def sub (x y : F32) : F32 :=
  let e := min x.e y.e
  let n := x.m * 2 ^ (x.e - e).toNat - y.m * 2 ^ (y.e - e).toNat
  if 0 ≤ e then roundF32 (n * 2 ^ e.toNat) 1 else roundF32 n (2 ^ (-e).toNat)

/-- The C cast `(int)x`: truncation toward zero. -/
def truncInt (x : F32) : Int :=
  if 0 ≤ x.e then x.m * 2 ^ x.e.toNat else Int.tdiv x.m (2 ^ (-x.e).toNat)

/-- Float comparison `x <= y` (exact on the dyadic representatives). -/
def leB (x y : F32) : Bool :=
  let e := min x.e y.e
  decide (x.m * 2 ^ (x.e - e).toNat ≤ y.m * 2 ^ (y.e - e).toNat)

end F32

/-! ## The geometry engine (src/karl-eido.c, lines 50-189) -/

/-- Embeds `triangle_height` (line 54): `(float)side_length * 0.866025404f`.
The literal `0.866025404f` is the binary32 rounding of the decimal. -/
def triangle_height (side_length : Int) : F32 :=
  F32.mul (F32.ofInt side_length) (roundF32 866025404 1000000000)

/-- The `DASH_DOT_PATTERN` constant (line 29). -/
def DASH_DOT_PATTERN : List Nat := [1, 0, 1, 1, 0]

/-- Embeds `get_triangle_vertices` (lines 125-153). -/
def get_triangle_vertices (col row side_length : Int) (pointing_right : Bool) : Tri :=
  let h := triangle_height side_length
  let base_x := F32.truncInt (F32.mul (F32.ofInt col) h)
  let base_y := 31 + cdiv (row * side_length) 2
  let ih := F32.truncInt h
  if pointing_right then
    ⟨⟨base_x, base_y - cdiv side_length 2⟩,
     ⟨base_x, base_y + cdiv side_length 2⟩,
     ⟨base_x + ih, base_y⟩⟩
  else
    ⟨⟨base_x, base_y⟩,
     ⟨base_x + ih, base_y - cdiv side_length 2⟩,
     ⟨base_x + ih, base_y + cdiv side_length 2⟩⟩

/-- Embeds `get_triangle_center` (lines 158-163): truncated vertex average. -/
def get_triangle_center (t : Tri) : Point :=
  ⟨cdiv (t.v0.x + t.v1.x + t.v2.x) 3, cdiv (t.v0.y + t.v1.y + t.v2.y) 3⟩

/-- Embeds `point_in_triangle` (lines 101-114): barycentric test computed in
binary32 arithmetic exactly as the C source does. -/
def point_in_triangle (px py : Int) (t : Tri) : Bool :=
  let x0 := t.v0.x; let y0 := t.v0.y
  let x1 := t.v1.x; let y1 := t.v1.y
  let x2 := t.v2.x; let y2 := t.v2.y
  let denom := (y1 - y2) * (x0 - x2) + (x2 - x1) * (y0 - y2)
  if denom = 0 then false
  else
    let fd := F32.ofInt denom
    let a := F32.div (F32.ofInt ((y1 - y2) * (px - x2) + (x2 - x1) * (py - y2))) fd
    let b := F32.div (F32.ofInt ((y2 - y0) * (px - x2) + (x0 - x2) * (py - y2))) fd
    let c := F32.sub (F32.sub F32.one a) b
    F32.leB F32.zero a && F32.leB a F32.one &&
    F32.leB F32.zero b && F32.leB b F32.one &&
    F32.leB F32.zero c && F32.leB c F32.one

/-- Embeds `is_triangle_visible` (lines 177-189). -/
def is_triangle_visible (t : Tri) : Bool :=
  if t.v2.x < 0 ∨ t.v0.x > 128 then false
  else if t.v0.y > 64 ∧ t.v1.y > 64 ∧ t.v2.y > 64 then false
  else if t.v0.y < 0 ∧ t.v1.y < 0 ∧ t.v2.y < 0 then false
  else true

/-! ## The rasterizer (lines 62-96)

`canvas_draw_line_dash_dot` is a `while(true)` loop; it is embedded with
fuel, returning the list of pixels actually drawn (`none` when the fuel
runs out before the end point is reached). -/

/-- Loop body/state of `canvas_draw_line_dash_dot` (lines 73-95).
Arguments after the fuel: current `x`, `y`, `err`, `pattern_index`. -/
def dashDotGo (x2 y2 dx dy sx sy : Int) : Nat → Int → Int → Int → Nat → Option (List Point)
  | 0, _, _, _, _ => none
  | fuel + 1, x, y, err, pidx =>
    let here : List Point := if DASH_DOT_PATTERN.getD pidx 0 = 1 then [⟨x, y⟩] else []
    if x = x2 ∧ y = y2 then some here
    else
      let e2 := 2 * err
      let x3 := if e2 > -dy then x + sx else x
      let err1 := if e2 > -dy then err - dy else err
      let y3 := if e2 < dx then y + sy else y
      let err2 := if e2 < dx then err1 + dx else err1
      Option.map (fun l => here ++ l)
        (dashDotGo x2 y2 dx dy sx sy fuel x3 y3 err2 ((pidx + 1) % 5))

/-- Fuel sufficient for the Bresenham loop: one unit per visited pixel. -/
def lineFuel (x1 y1 x2 y2 : Int) : Nat := (x2 - x1).natAbs + (y2 - y1).natAbs + 1

/-- Embeds `canvas_draw_line_dash_dot` (lines 62-96): the list of pixels drawn. -/
def canvas_draw_line_dash_dot (x1 y1 x2 y2 : Int) : Option (List Point) :=
  let dx := |x2 - x1|
  let dy := |y2 - y1|
  let sx : Int := if x1 < x2 then 1 else -1
  let sy : Int := if y1 < y2 then 1 else -1
  dashDotGo x2 y2 dx dy sx sy (lineFuel x1 y1 x2 y2) x1 y1 (dx - dy) 0

/-- Modelled from the spec: the Bresenham pixel sequence between two
points ("integer Bresenham stepper between two points", §4.2) - the same
stepper, recording every visited pixel. -/
def bresVisitGo (x2 y2 dx dy sx sy : Int) : Nat → Int → Int → Int → Option (List Point)
  | 0, _, _, _ => none
  | fuel + 1, x, y, err =>
    if x = x2 ∧ y = y2 then some [⟨x, y⟩]
    else
      let e2 := 2 * err
      let x3 := if e2 > -dy then x + sx else x
      let err1 := if e2 > -dy then err - dy else err
      let y3 := if e2 < dx then y + sy else y
      let err2 := if e2 < dx then err1 + dx else err1
      Option.map (fun l => (⟨x, y⟩ : Point) :: l)
        (bresVisitGo x2 y2 dx dy sx sy fuel x3 y3 err2)

/-- Modelled from the spec: the full visited Bresenham pixel sequence
from `(x1, y1)` to `(x2, y2)`. -/
def bresenhamVisited (x1 y1 x2 y2 : Int) : Option (List Point) :=
  let dx := |x2 - x1|
  let dy := |y2 - y1|
  let sx : Int := if x1 < x2 then 1 else -1
  let sy : Int := if y1 < y2 then 1 else -1
  bresVisitGo x2 y2 dx dy sx sy (lineFuel x1 y1 x2 y2) x1 y1 (dx - dy)

/-- The dash-dot filter of the spec: keep exactly the pixels whose
position in the visited sequence (counted from `start`, wrapping modulo
5) selects a `1` in the cyclic pattern `[1,0,1,1,0]`. -/
def dashDotFilter (start : Nat) : List Point → List Point
  | [] => []
  | a :: l =>
    (if DASH_DOT_PATTERN.getD (start % 5) 0 = 1 then [a] else []) ++
      dashDotFilter (start + 1) l

/-! ## The pixel sampler (lines 194-221) -/

/-- Loop body of `generate_random_pixels` (lines 208-220).  `n` is the
number of trial iterations left, `k` the position in the random stream
`R` (two draws per trial), `acc` the pixels stored so far.  Returns the
final pixel buffer and the number of trial iterations executed. -/
def genGo (t : Tri) (c : Point) (s ih : Int) (R : Nat → Nat) :
    Nat → Nat → List Point → List Point × Nat
  | 0, _, acc => (acc, 0)
  | n + 1, k, acc =>
    if acc.length < 200 then
      let px := t.v0.x + cmod (R k) (ih + 1)
      let py := t.v0.y - cdiv s 2 + cmod (R (k + 1)) (s + 1)
      let acc2 :=
        if point_in_triangle px py t = true ∧ ¬(px = c.x ∧ py = c.y) then
          acc ++ [⟨px, py⟩]
        else acc
      let r := genGo t c s ih R n (k + 2) acc2
      (r.1, r.2 + 1)
    else (acc, 0)

/-- Application state (lines 41-48).  The pixel buffer is the list of
stored pixels (`pixel_count = pixels.length`). -/
structure AppState where
  side_length : Int
  num_random_pixels : Int
  show_centers : Bool
  running : Bool
  pixels : List Point
deriving DecidableEq, Repr

/-- Embeds `generate_random_pixels` (lines 194-221), with the C `rand()`
stream passed explicitly.  When `side_length < MIN_SIDE_LENGTH` the function
returns without touching the buffer (line 196). -/
def generate_random_pixels (R : Nat → Nat) (st : AppState) : AppState :=
  if st.side_length < 5 then st
  else
    let h := triangle_height st.side_length
    let bt := get_triangle_vertices 0 0 st.side_length true
    let bc := get_triangle_center bt
    { st with
      pixels := (genGo bt bc st.side_length (F32.truncInt h) R st.num_random_pixels.toNat 0 []).1 }

/-- Like `generate_random_pixels` but also exposing the number of trial
iterations the sampler loop executed (for the trial-count claims). -/
def generate_random_pixels_trials (R : Nat → Nat) (s N : Int) : List Point × Nat :=
  genGo (get_triangle_vertices 0 0 s true)
    (get_triangle_center (get_triangle_vertices 0 0 s true)) s
    (F32.truncInt (triangle_height s)) R N.toNat 0 []

/-! ## Input handling (lines 329-389) and the main loop (lines 395-463) -/

/-- Flipper input keys. -/
inductive InputKey
  | up | down | left | right | ok | back
deriving DecidableEq, Repr

/-- Flipper input event kinds. -/
inductive InputType
  | press | release | short | long | rep
deriving DecidableEq, Repr

/-- An input event (key plus event kind). -/
structure InputEvent where
  key : InputKey
  type : InputType
deriving DecidableEq, Repr

/-- Embeds `handle_input` (lines 329-389): returns `(state_changed, new state)`.
The `rand()` stream consumed by a triggered regeneration is passed
explicitly. -/
def handle_input (event : InputEvent) (st : AppState) (R : Nat → Nat) : Bool × AppState :=
  if event.type ≠ InputType.press ∧ event.type ≠ InputType.rep then (false, st)
  else
    match event.key with
    | .up =>
      if st.side_length < 63 then
        (true, generate_random_pixels R { st with side_length := st.side_length + 2 })
      else (false, st)
    | .down =>
      if st.side_length > 5 then
        (true, generate_random_pixels R { st with side_length := st.side_length - 2 })
      else (false, st)
    | .left =>
      if st.num_random_pixels > 0 then
        (true, generate_random_pixels R { st with num_random_pixels := st.num_random_pixels - 1 })
      else (false, st)
    | .right =>
      (true, generate_random_pixels R { st with num_random_pixels := st.num_random_pixels + 1 })
    | .ok =>
      if event.type = InputType.press then
        (true, { st with show_centers := !st.show_centers })
      else (false, st)
    | .back => (false, { st with running := false })

/-- The state set up by `karl_main` before the event loop (lines 411-418).
The initial `generate_random_pixels` call runs zero trials
(`num_random_pixels = 0`), so the buffer stays empty. -/
def initState : AppState :=
  { side_length := 5, num_random_pixels := 0, show_centers := false,
    running := true, pixels := [] }

/-- The event loop's state evolution (lines 446-452): each handled event
updates the state through `handle_input`; each event comes with the
`rand()` stream the triggered regeneration (if any) consumes. -/
def runEvents (evs : List (InputEvent × (Nat → Nat))) (st : AppState) : AppState :=
  evs.foldl (fun s er => (handle_input er.1 s er.2).2) st

/-! ## Grid renderer dimensions (lines 237-247) -/

/-- The `num_cols` computation of `draw_pattern` (line 238): `(int)(SCREEN_WIDTH / h) + 2`. -/
def num_cols (s : Int) : Int :=
  F32.truncInt (F32.div (F32.ofInt 128) (triangle_height s)) + 2

/-- The `num_rows` computation of `draw_pattern` (line 239):
`(int)(SCREEN_HEIGHT / (side_length / 2.0f)) + 2`. -/
def num_rows (s : Int) : Int :=
  F32.truncInt (F32.div (F32.ofInt 64) (F32.div (F32.ofInt s) (F32.ofInt 2))) + 2

/-- The checkerboard orientation rule of `draw_pattern` (line 249). -/
def pointing_right (col row : Int) : Bool := cmod (col + row) 2 = 0

/-! ## Spec-side definitions (for refinement comparisons) -/

/-- Computes `⌈n / d⌉` for integers with `d > 0`. -/
def ceilQ (n d : Int) : Int := -(Int.ediv (-n) d)

/-- Computes `⌈a / y⌉` for a dyadic `y > 0`. -/
def ceilDivF32 (a : Int) (y : F32) : Int :=
  if 0 ≤ y.e then ceilQ a (y.m * 2 ^ y.e.toNat) else ceilQ (a * 2 ^ (-y.e).toNat) y.m

/-- Modelled from the spec (§4.4): the claimed column count
`⌈width / height(side)⌉ + 2`, with `height` the program's
`triangle_height`. -/
def specNumColsCeil (s : Int) : Int :=
  ceilDivF32 128 (triangle_height s) + 2

/-- Modelled from the spec (§4.4): the claimed row count
`⌈height / (side / 2)⌉ + 2` (note `64 / (s / 2) = 128 / s` exactly). -/
def specNumRowsCeil (s : Int) : Int :=
  ceilQ 128 s + 2

/-- Exact (rational) barycentric data of the C test: the denominator and
the three weight numerators (`a = na / d`, `b = nb / d`, `c = nc / d`). -/
def baryData (px py : Int) (t : Tri) : Int × Int × Int × Int :=
  let d := (t.v1.y - t.v2.y) * (t.v0.x - t.v2.x) + (t.v2.x - t.v1.x) * (t.v0.y - t.v2.y)
  let na := (t.v1.y - t.v2.y) * (px - t.v2.x) + (t.v2.x - t.v1.x) * (py - t.v2.y)
  let nb := (t.v2.y - t.v0.y) * (px - t.v2.x) + (t.v0.x - t.v2.x) * (py - t.v2.y)
  (d, na, nb, d - na - nb)

/-- Modelled from the spec (§4.1): non-degenerate and all three exact
barycentric weights in `[0,1]` (boundary included). -/
def inTriangleExact (px py : Int) (t : Tri) : Prop :=
  let q := baryData px py t
  q.1 ≠ 0 ∧
  0 ≤ q.2.1 * q.1 ∧ q.2.1 * q.1 ≤ q.1 * q.1 ∧
  0 ≤ q.2.2.1 * q.1 ∧ q.2.2.1 * q.1 ≤ q.1 * q.1 ∧
  0 ≤ q.2.2.2 * q.1 ∧ q.2.2.2 * q.1 ≤ q.1 * q.1

/-- Modelled from the spec (§3): strictly inside - non-degenerate and
all three exact barycentric weights in the open interval `(0,1)`. -/
def strictlyInsideExact (px py : Int) (t : Tri) : Prop :=
  let q := baryData px py t
  q.1 ≠ 0 ∧
  0 < q.2.1 * q.1 ∧ q.2.1 * q.1 < q.1 * q.1 ∧
  0 < q.2.2.1 * q.1 ∧ q.2.2.1 * q.1 < q.1 * q.1 ∧
  0 < q.2.2.2 * q.1 ∧ q.2.2.2 * q.1 < q.1 * q.1

instance (px py : Int) (t : Tri) : Decidable (inTriangleExact px py t) := by
  unfold inTriangleExact; infer_instance

instance (px py : Int) (t : Tri) : Decidable (strictlyInsideExact px py t) := by
  unfold strictlyInsideExact; infer_instance

/-- Modelled from the spec (§4.1, claim C5): all three vertices share an
out-of-bounds side of the 128x64 screen. -/
def allOffscreenSide (t : Tri) : Prop :=
  (128 ≤ t.v0.x ∧ 128 ≤ t.v1.x ∧ 128 ≤ t.v2.x) ∨
  (t.v0.x < 0 ∧ t.v1.x < 0 ∧ t.v2.x < 0) ∨
  (64 ≤ t.v0.y ∧ 64 ≤ t.v1.y ∧ 64 ≤ t.v2.y) ∨
  (t.v0.y < 0 ∧ t.v1.y < 0 ∧ t.v2.y < 0)

instance (t : Tri) : Decidable (allOffscreenSide t) := by
  unfold allOffscreenSide; infer_instance

/-- Computes `⌊n / d⌋` for integers with `d > 0` (Euclidean division is the floor
for positive divisors). -/
def floorQ (n d : Int) : Int := Int.ediv n d

/-- Computes `⌊a / y⌋` for a dyadic `y > 0`. -/
def floorDivF32 (a : Int) (y : F32) : Int :=
  if 0 ≤ y.e then floorQ a (y.m * 2 ^ y.e.toNat) else floorQ (a * 2 ^ (-y.e).toNat) y.m

/-- The reference (base) triangle of the sampler: grid `(0,0)`, pointing
right (lines 200-202). -/
def refTri (s : Int) : Tri := get_triangle_vertices 0 0 s true

/-- The triangle drawn at lattice cell `(col, row)` by `draw_pattern`
(lines 249-252): orientation from the checkerboard rule. -/
def cellTri (s col row : Int) : Tri :=
  get_triangle_vertices col row s (pointing_right col row)

/-- The bottom (larger-`y` side) edge of a cell: for a right-pointing
triangle the edge `v1 - v2`, for a left-pointing one the edge `v0 - v2`. -/
def botEdge (pr : Bool) (t : Tri) : Point × Point :=
  if pr then (t.v1, t.v2) else (t.v0, t.v2)

/-- The top (smaller-`y` side) edge of a cell: for a right-pointing
triangle the edge `v0 - v2`, for a left-pointing one the edge `v0 - v1`. -/
def topEdge (pr : Bool) (t : Tri) : Point × Point :=
  if pr then (t.v0, t.v2) else (t.v0, t.v1)

/-- The cells `(col, row)` and `(col, row + 1)` share an edge: the bottom
edge of the upper cell must coincide, endpoint for endpoint, with the top
edge of the lower cell. -/
def seamMatch (s col row : Int) : Prop :=
  botEdge (pointing_right col row) (cellTri s col row) =
    topEdge (pointing_right col (row + 1)) (cellTri s col (row + 1))

instance (s col row : Int) : Decidable (seamMatch s col row) := by
  unfold seamMatch; infer_instance

/-- The cells `(col, row)` and `(col - 1, row)` share a vertical edge
when `(col, row)` points right: its left edge `v0 - v1` must coincide
with the right edge `v1 - v2` of the left-pointing neighbour. -/
def colSeamMatch (s col row : Int) : Prop :=
  pointing_right col row = true →
    ((cellTri s col row).v0, (cellTri s col row).v1) =
      ((cellTri s (col - 1) row).v1, (cellTri s (col - 1) row).v2)

instance (s col row : Int) : Decidable (colSeamMatch s col row) := by
  unfold colSeamMatch; infer_instance

/-- The side-length invariant of claim C3: within `[5, 63]` and odd
(equivalently: reachable from the initial 5 by steps of 2). -/
def sideInv (st : AppState) : Prop :=
  5 ≤ st.side_length ∧ st.side_length ≤ 63 ∧ Odd st.side_length

/-- The random stream used for the C8 counterexample: first draw 0,
second draw 4 (then zeros). -/
def cexStream : Nat → Nat := fun k => if k = 1 then 4 else 0

/-- The corrected grid-dimension/coverage property of claim C4, for one
side length: the code computes `⌊128/h⌋ + 2` columns and `⌊128/s⌋ + 2`
rows (truncation, not ceiling), and the iterated lattice over-covers the
128x64 viewport: the last column's apex is at `x ≥ 128`, column 0 starts
at `x ≤ 0`, the bottom-most iterated row ends at `y ≥ 64` and the
top-most starts at `y ≤ 0`. -/
def gridDimsProp (s : Int) : Prop :=
  num_cols s = floorDivF32 128 (triangle_height s) + 2 ∧
  num_rows s = floorQ 128 s + 2 ∧
  128 ≤ (get_triangle_vertices (num_cols s - 1) 0 s true).v2.x ∧
  (get_triangle_vertices 0 0 s true).v0.x ≤ 0 ∧
  64 ≤ (get_triangle_vertices 0 (num_rows s - 1) s true).v1.y ∧
  (get_triangle_vertices 0 (-num_rows s) s true).v0.y ≤ 0

instance (s : Int) : Decidable (gridDimsProp s) := by
  unfold gridDimsProp; infer_instance

/-- The sampler facts of claim C2 for one run: realized count is at most
`min N 200`; every stored pixel passes the (float) point-in-triangle test
for the reference triangle and differs from its centroid; the loop runs
at most `N` trials, and exactly `N` unless the 200-pixel cap was hit. -/
def samplerProps (R : Nat → Nat) (s N : Int) : Prop :=
  (((generate_random_pixels_trials R s N).1.length : Int) ≤ min N 200) ∧
  (∀ p ∈ (generate_random_pixels_trials R s N).1,
    point_in_triangle p.x p.y (refTri s) = true ∧ p ≠ get_triangle_center (refTri s)) ∧
  (((generate_random_pixels_trials R s N).2 : Int) ≤ N) ∧
  ((generate_random_pixels_trials R s N).1.length < 200 →
    ((generate_random_pixels_trials R s N).2 : Int) = N)

instance (R : Nat → Nat) (s N : Int) : Decidable (samplerProps R s N) := by
  unfold samplerProps; infer_instance

/-- The regeneration invariant of claim C8 (amended): capacity respected,
every stored pixel passes the float inside test and is not the centroid. -/
def sampledPixelsProp (R : Nat → Nat) (st : AppState) : Prop :=
  (generate_random_pixels R st).pixels.length ≤ 200 ∧
  ∀ p ∈ (generate_random_pixels R st).pixels,
    point_in_triangle p.x p.y (refTri st.side_length) = true ∧
    p ≠ get_triangle_center (refTri st.side_length)

instance (R : Nat → Nat) (st : AppState) : Decidable (sampledPixelsProp R st) := by
  unfold sampledPixelsProp; infer_instance

/-- The point-in-triangle facts of claim C7 (amended) for one reference
triangle: the test accepts the triangle's own centroid and rejects the
far-outside point `(1000, 1000)`. -/
def pitProps (s : Int) : Prop :=
  point_in_triangle (get_triangle_center (refTri s)).x (get_triangle_center (refTri s)).y
    (refTri s) = true ∧
  point_in_triangle 1000 1000 (refTri s) = false

instance (s : Int) : Decidable (pitProps s) := by
  unfold pitProps; infer_instance

/-! # Theorems -/

set_option maxRecDepth 16000
set_option maxHeartbeats 1600000

/-! ## Shared helper lemmas -/

theorem cmod_two_eq_zero_iff (n : Int) : cmod n 2 = 0 ↔ Even n := by
  unfold cmod
  constructor
  · intro h
    rcases Int.dvd_of_tmod_eq_zero h with ⟨c, hc⟩
    exact ⟨c, by omega⟩
  · rintro ⟨c, hc⟩
    exact Int.tmod_eq_zero_of_dvd ⟨c, by omega⟩

theorem pointing_right_eq_decide (col row : Int) :
    pointing_right col row = decide (Even (col + row)) := by
  unfold pointing_right
  exact decide_eq_decide.2 (cmod_two_eq_zero_iff _)

theorem even_tdiv_shift (k row : Int) :
    Int.tdiv ((row + 1) * (2 * k)) 2 = Int.tdiv (row * (2 * k)) 2 + k := by
  have h1 : (row + 1) * (2 * k) = 2 * (row * k + k) := by ring
  have h2 : row * (2 * k) = 2 * (row * k) := by ring
  rw [h1, h2, Int.mul_tdiv_cancel_left _ (by norm_num),
    Int.mul_tdiv_cancel_left _ (by norm_num)]

theorem tdiv_two_mul_cancel (k : Int) : Int.tdiv (2 * k) 2 = k :=
  Int.mul_tdiv_cancel_left _ (by norm_num)

/-- Vertical seams between a cell and the cell below it match whenever
the side length is even (then `row * s / 2` never truncates). -/
theorem seamMatch_of_even (k s col row : Int) (hs : s = 2 * k) :
    seamMatch s col row := by
  subst hs
  have hflip : pointing_right col (row + 1) = !pointing_right col row := by
    rw [pointing_right_eq_decide, pointing_right_eq_decide,
      show col + (row + 1) = (col + row) + 1 by ring,
      decide_eq_decide.2 Int.even_add_one, decide_not]
  have harith := even_tdiv_shift k row
  have hk := tdiv_two_mul_cancel k
  unfold seamMatch cellTri get_triangle_vertices botEdge topEdge
  rcases hb : pointing_right col row with _ | _ <;> rw [hb] at hflip <;> rw [hflip] <;>
    simp only [Bool.not_false, Bool.not_true, Bool.false_eq_true, if_false, if_true,
      Prod.mk.injEq, Point.mk.injEq, cdiv] <;>
    rw [harith, hk] <;>
    refine ⟨⟨trivial, by ring⟩, trivial, by ring⟩


theorem decide_even_add_one (n : Int) : decide (Even (n + 1)) = !decide (Even n) := by
  rw [decide_eq_decide.2 Int.even_add_one, decide_not]

theorem decide_even_sub_one (n : Int) : decide (Even (n - 1)) = !decide (Even n) := by
  have h : Even (n - 1) ↔ ¬ Even n := by
    rw [show n = (n - 1) + 1 by ring, Int.even_add_one]
    simp [show n - 1 + 1 - 1 = n - 1 by ring]
  rw [decide_eq_decide.2 h, decide_not]

/-- C5, corrected.  `is_triangle_visible` returns `false` exactly when
`v2.x < 0`, or `v0.x > 128`, or all three `y > 64`, or all three
`y < 0` - not when all three vertices share an out-of-bounds side as the
claim states (it inspects only `v2.x` / `v0.x` horizontally, and uses
strict comparisons against 128 and 64). -/
theorem is_triangle_visible_false_iff (t : Tri) :
    is_triangle_visible t = false ↔
      (t.v2.x < 0 ∨ 128 < t.v0.x ∨ (64 < t.v0.y ∧ 64 < t.v1.y ∧ 64 < t.v2.y) ∨
        (t.v0.y < 0 ∧ t.v1.y < 0 ∧ t.v2.y < 0)) := by
  unfold is_triangle_visible
  split_ifs with h1 h2 h3 <;> simp <;> omega

/-- C5, counterexample to the claim as stated: a triangle with a single
vertex off the left edge is reported invisible by the code, yet its three
vertices do not share a common out-of-bounds side. -/
theorem visible_cex :
    is_triangle_visible ⟨⟨5, 10⟩, ⟨5, 12⟩, ⟨-1, 11⟩⟩ = false ∧
      ¬ allOffscreenSide ⟨⟨5, 10⟩, ⟨5, 12⟩, ⟨-1, 11⟩⟩ := by decide

/-- C4, counterexample to the claim as stated: at side length 20 the code
computes 9 columns and 8 rows, while the claimed ceiling formulas give 10
and 9. -/
theorem grid_dims_cex :
    num_cols 20 = 9 ∧ specNumColsCeil 20 = 10 ∧
    num_rows 20 = 8 ∧ specNumRowsCeil 20 = 9 := by decide

/-- C4, amended: for every side length in `[5, 63]` the grid renderer
computes `⌊128/h⌋ + 2` columns and `⌊128/s⌋ + 2` rows (C truncation of
the float quotients, not ceilings), and the iterated lattice
(columns `0..num_cols-1`, rows `-num_rows..num_rows-1`) over-covers the
128x64 viewport on all four sides. -/
theorem grid_dims_cover (s : Int) (h1 : 5 ≤ s) (h2 : s ≤ 63) : gridDimsProp s := by
  interval_cases s <;> decide

/-- Witness for `grid_dims_cover` at `s = 20`. -/
theorem grid_dims_cover_witness : (5 : Int) ≤ 20 ∧ (20 : Int) ≤ 63 ∧ gridDimsProp 20 :=
  ⟨by norm_num, by norm_num, grid_dims_cover 20 (by norm_num) (by norm_num)⟩

/-- C6, counterexample to the claim as stated: for side length 63 the
edge shared by the cells `(0,1)` and `(0,2)` does not match (the two
computations of the shared endpoints differ by one pixel, because
`row*63/2` truncates), and for side length 10 the vertical edge shared by
the cells `(2,0)` and `(1,0)` does not match (per-column float truncation:
`(int)(2*h) = 17` but `(int)(1*h) + (int)h = 16`). -/
theorem seam_cex : ¬ seamMatch 63 0 1 ∧ ¬ colSeamMatch 10 2 0 := by decide

/-- C6, amended: the checkerboard orientation rule holds for every cell
(`(col+row) mod 2 = 0` iff pointing right) and all four neighbours have
the opposite orientation, for any side length; the edge shared by
row-adjacent cells matches exactly for the even side lengths 10, 20, 40
(for 63 it can be off by one pixel, and column seams can be off by one
pixel for any of the four side lengths - see the counterexample). -/
theorem checkerboard_orientation (col row : Int) :
    (pointing_right col row = true ↔ Even (col + row)) ∧
    pointing_right (col + 1) row = !pointing_right col row ∧
    pointing_right (col - 1) row = !pointing_right col row ∧
    pointing_right col (row + 1) = !pointing_right col row ∧
    pointing_right col (row - 1) = !pointing_right col row ∧
    seamMatch 10 col row ∧ seamMatch 20 col row ∧ seamMatch 40 col row := by
  refine ⟨?_, ?_, ?_, ?_, ?_,
    seamMatch_of_even 5 _ _ _ (by norm_num),
    seamMatch_of_even 10 _ _ _ (by norm_num),
    seamMatch_of_even 20 _ _ _ (by norm_num)⟩
  · rw [pointing_right_eq_decide]; exact decide_eq_true_iff
  · rw [pointing_right_eq_decide, pointing_right_eq_decide,
      show col + 1 + row = (col + row) + 1 by ring, decide_even_add_one]
  · rw [pointing_right_eq_decide, pointing_right_eq_decide,
      show col - 1 + row = (col + row) - 1 by ring, decide_even_sub_one]
  · rw [pointing_right_eq_decide, pointing_right_eq_decide,
      show col + (row + 1) = (col + row) + 1 by ring, decide_even_add_one]
  · rw [pointing_right_eq_decide, pointing_right_eq_decide,
      show col + (row - 1) = (col + row) - 1 by ring, decide_even_sub_one]

theorem genGo_length_le (t : Tri) (c : Point) (s ih : Int) (R : Nat → Nat) :
    ∀ (n k : Nat) (acc : List Point),
      (genGo t c s ih R n k acc).1.length ≤ acc.length + n := by
  intro n
  induction n with
  | zero => intro k acc; simp [genGo]
  | succ m ihn =>
    intro k acc
    unfold genGo
    split_ifs with h
    · dsimp only
      refine le_trans (ihn (k + 2) _) ?_
      split_ifs with hstore
      · simp
        omega
      · omega
    · simp

theorem genGo_length_le_200 (t : Tri) (c : Point) (s ih : Int) (R : Nat → Nat) :
    ∀ (n k : Nat) (acc : List Point), acc.length ≤ 200 →
      (genGo t c s ih R n k acc).1.length ≤ 200 := by
  intro n
  induction n with
  | zero => intro k acc hacc; simpa [genGo] using hacc
  | succ m ihn =>
    intro k acc hacc
    unfold genGo
    split_ifs with h
    · dsimp only
      refine ihn (k + 2) _ ?_
      split_ifs with hstore
      · simp
        omega
      · omega
    · exact hacc

theorem genGo_mem (t : Tri) (c : Point) (s ih : Int) (R : Nat → Nat) :
    ∀ (n k : Nat) (acc : List Point),
      (∀ p ∈ acc, point_in_triangle p.x p.y t = true ∧ p ≠ c) →
      ∀ p ∈ (genGo t c s ih R n k acc).1,
        point_in_triangle p.x p.y t = true ∧ p ≠ c := by
  intro n
  induction n with
  | zero => intro k acc hacc; simpa [genGo] using hacc
  | succ m ihn =>
    intro k acc hacc
    unfold genGo
    split_ifs with h
    · dsimp only
      refine ihn (k + 2) _ ?_
      split_ifs with hstore
      · intro p hp
        rcases List.mem_append.1 hp with hp1 | hp2
        · exact hacc p hp1
        · have hps : p = ⟨t.v0.x + cmod (R k) (ih + 1),
              t.v0.y - cdiv s 2 + cmod (R (k + 1)) (s + 1)⟩ := by
            simpa using hp2
          refine ⟨by rw [hps]; exact hstore.1, fun hc => hstore.2 ?_⟩
          rw [hps] at hc
          exact ⟨congrArg Point.x hc, congrArg Point.y hc⟩
      · exact hacc
    · exact hacc

theorem genGo_trials (t : Tri) (c : Point) (s ih : Int) (R : Nat → Nat) :
    ∀ (n k : Nat) (acc : List Point),
      (genGo t c s ih R n k acc).2 ≤ n ∧
      ((genGo t c s ih R n k acc).1.length < 200 → (genGo t c s ih R n k acc).2 = n) := by
  intro n
  induction n with
  | zero => intro k acc; simp [genGo]
  | succ m ihn =>
    intro k acc
    unfold genGo
    split_ifs with h
    · dsimp only
      rcases ihn (k + 2) (if point_in_triangle (t.v0.x + cmod (R k) (ih + 1))
          (t.v0.y - cdiv s 2 + cmod (R (k + 1)) (s + 1)) t = true ∧
          ¬(t.v0.x + cmod (R k) (ih + 1) = c.x ∧
            t.v0.y - cdiv s 2 + cmod (R (k + 1)) (s + 1) = c.y) then
          acc ++ [⟨t.v0.x + cmod (R k) (ih + 1),
            t.v0.y - cdiv s 2 + cmod (R (k + 1)) (s + 1)⟩] else acc) with ⟨ih1, ih2⟩
      constructor
      · omega
      · intro hlt
        have := ih2 hlt
        omega
    · simp at h ⊢
      omega


/-- C2, confirmed.  The sampler is a trials-not-successes loop: for a
state with `side_length ≥ 5` the regeneration stores exactly the pixels
the trial loop accepts; the realized count is at most `min N 200`; every
stored pixel passes `point_in_triangle` for the reference triangle and
is not its centroid; the loop runs `N` trial iterations unless the cap
of 200 stored pixels stops it early; and the count can fall short of `N`
(witnessed by a one-trial run whose sample is rejected). -/
theorem sampler_trials_props :
    (∀ (R : Nat → Nat) (st : AppState), 5 ≤ st.side_length →
      (generate_random_pixels R st).pixels =
        (generate_random_pixels_trials R st.side_length st.num_random_pixels).1) ∧
    (∀ (R : Nat → Nat) (s N : Int), 5 ≤ s → 0 ≤ N → samplerProps R s N) ∧
    (generate_random_pixels_trials (fun _ => 0) 5 1).1.length = 0 := by
  refine ⟨?_, ?_, by decide⟩
  · intro R st h
    unfold generate_random_pixels generate_random_pixels_trials
    rw [if_neg (by omega)]
  · intro R s N h1 h2
    unfold samplerProps generate_random_pixels_trials
    refine ⟨?_, ?_, ?_, ?_⟩
    · have hle := genGo_length_le (get_triangle_vertices 0 0 s true)
        (get_triangle_center (get_triangle_vertices 0 0 s true)) s
        (F32.truncInt (triangle_height s)) R N.toNat 0 []
      have h200 := genGo_length_le_200 (get_triangle_vertices 0 0 s true)
        (get_triangle_center (get_triangle_vertices 0 0 s true)) s
        (F32.truncInt (triangle_height s)) R N.toNat 0 [] (by simp)
      simp only [List.length_nil, Nat.zero_add] at hle
      omega
    · intro p hp
      have := genGo_mem (get_triangle_vertices 0 0 s true)
        (get_triangle_center (get_triangle_vertices 0 0 s true)) s
        (F32.truncInt (triangle_height s)) R N.toNat 0 [] (by simp) p hp
      exact this
    · have := (genGo_trials (get_triangle_vertices 0 0 s true)
        (get_triangle_center (get_triangle_vertices 0 0 s true)) s
        (F32.truncInt (triangle_height s)) R N.toNat 0 []).1
      omega
    · intro hlt
      have := (genGo_trials (get_triangle_vertices 0 0 s true)
        (get_triangle_center (get_triangle_vertices 0 0 s true)) s
        (F32.truncInt (triangle_height s)) R N.toNat 0 []).2 hlt
      omega

/-- Witness for `sampler_trials_props` at `s = 5`, `N = 1`. -/
theorem sampler_trials_props_witness :
    (5 : Int) ≤ 5 ∧ (0 : Int) ≤ 1 ∧ samplerProps (fun _ => 0) 5 1 :=
  ⟨le_refl _, by norm_num, sampler_trials_props.2.1 (fun _ => 0) 5 1 (le_refl _) (by norm_num)⟩

/-- C8, counterexample to the claim as stated: with side length 5 and a
stream drawing `(0, 4)` the single trial stores the pixel `(0, 31)`,
which lies ON the reference triangle's boundary (its exact barycentric
weights are `(1/2, 1/2, 0)`), not strictly inside it. -/
theorem boundary_pixel_stored :
    (generate_random_pixels cexStream
      { side_length := 5, num_random_pixels := 1, show_centers := false,
        running := true, pixels := [] }).pixels = [⟨0, 31⟩] ∧
    ¬ strictlyInsideExact 0 31 (refTri 5) ∧ inTriangleExact 0 31 (refTri 5) := by decide

/-- C8, amended: after every successful regeneration (`side_length ≥ 5`)
the stored pixel count is at most the capacity 200, and every stored
pixel passes the program's (float, boundary-inclusive) point-in-triangle
test for the reference triangle and is never its centroid. -/
theorem sampled_pixels_props (R : Nat → Nat) (st : AppState) (h : 5 ≤ st.side_length) :
    sampledPixelsProp R st := by
  unfold sampledPixelsProp generate_random_pixels
  rw [if_neg (by omega)]
  constructor
  · exact genGo_length_le_200 _ _ _ _ R _ 0 [] (by simp)
  · intro p hp
    exact genGo_mem _ _ _ _ R _ 0 [] (by simp) p hp

/-- Witness for `sampled_pixels_props` at the initial state. -/
theorem sampled_pixels_props_witness :
    5 ≤ initState.side_length ∧ sampledPixelsProp (fun _ => 0) initState :=
  ⟨by decide, sampled_pixels_props (fun _ => 0) initState (by decide)⟩

/-- C7, counterexample to the claim as stated, in two parts.  First, the
truncated centroid `(3, 0)` of the thin non-degenerate triangle
`(0,0), (4,1), (5,1)` lies outside it, and the code rejects it.  Second,
the boundary point `(0, 1)` of the triangle `(0,0), (0,3), (1,0)` has
exact barycentric weights `(2/3, 1/3, 0)`, all within `[0,1]`, yet the
float computation `1.0f - a - b` comes out as `-2^-25` and the code
rejects the point: the test is not exactly the `[0,1]` condition. -/
theorem point_in_triangle_cex :
    ((baryData 3 0 ⟨⟨0, 0⟩, ⟨4, 1⟩, ⟨5, 1⟩⟩).1 ≠ 0 ∧
     get_triangle_center ⟨⟨0, 0⟩, ⟨4, 1⟩, ⟨5, 1⟩⟩ = ⟨3, 0⟩ ∧
     point_in_triangle 3 0 ⟨⟨0, 0⟩, ⟨4, 1⟩, ⟨5, 1⟩⟩ = false) ∧
    (inTriangleExact 0 1 ⟨⟨0, 0⟩, ⟨0, 3⟩, ⟨1, 0⟩⟩ ∧
     point_in_triangle 0 1 ⟨⟨0, 0⟩, ⟨0, 3⟩, ⟨1, 0⟩⟩ = false) := by decide

/-- C7, amended: the test rejects every degenerate (zero-denominator)
vertex triple; and for each of the app's reference triangles
(side length 5..63) it accepts the triangle's own truncated centroid and
rejects the far-outside point `(1000, 1000)`. -/
theorem point_in_triangle_props :
    (∀ (px py : Int) (t : Tri), (baryData px py t).1 = 0 → point_in_triangle px py t = false) ∧
    (∀ s : Int, 5 ≤ s → s ≤ 63 → pitProps s) := by
  constructor
  · intro px py t h
    have hd : (t.v1.y - t.v2.y) * (t.v0.x - t.v2.x) + (t.v2.x - t.v1.x) * (t.v0.y - t.v2.y)
        = 0 := by
      simpa [baryData] using h
    simp [point_in_triangle, hd]
  · intro s h1 h2
    interval_cases s <;> decide

/-- Witness for `point_in_triangle_props`: the degenerate (collinear)
triple `(0,0), (1,1), (2,2)` and the reference triangle of side 20. -/
theorem point_in_triangle_props_witness :
    ((baryData 0 0 ⟨⟨0, 0⟩, ⟨1, 1⟩, ⟨2, 2⟩⟩).1 = 0 ∧
      point_in_triangle 0 0 ⟨⟨0, 0⟩, ⟨1, 1⟩, ⟨2, 2⟩⟩ = false) ∧
    ((5 : Int) ≤ 20 ∧ (20 : Int) ≤ 63 ∧ pitProps 20) :=
  ⟨⟨by decide, point_in_triangle_props.1 0 0 _ (by decide)⟩,
   ⟨by norm_num, by norm_num, point_in_triangle_props.2 20 (by norm_num) (by norm_num)⟩⟩

theorem generate_random_pixels_fields (R : Nat → Nat) (st : AppState) :
    (generate_random_pixels R st).side_length = st.side_length ∧
    (generate_random_pixels R st).num_random_pixels = st.num_random_pixels ∧
    (generate_random_pixels R st).show_centers = st.show_centers ∧
    (generate_random_pixels R st).running = st.running := by
  unfold generate_random_pixels
  split_ifs <;> simp

theorem sideInv_gen (R : Nat → Nat) (st2 : AppState) (h5 : 5 ≤ st2.side_length)
    (h63 : st2.side_length ≤ 63) (hodd : st2.side_length % 2 = 1) :
    sideInv (generate_random_pixels R st2) := by
  refine ⟨?_, ?_, ?_⟩ <;> rw [(generate_random_pixels_fields R st2).1]
  · exact h5
  · exact h63
  · rw [Int.odd_iff]; exact hodd

theorem handle_input_sideInv (e : InputEvent) (st : AppState) (R : Nat → Nat)
    (h : sideInv st) : sideInv (handle_input e st R).2 := by
  obtain ⟨h1, h2, h3⟩ := h
  have hmod : st.side_length % 2 = 1 := Int.odd_iff.1 h3
  obtain ⟨k, ty⟩ := e
  cases ty <;> cases k <;>
    simp only [handle_input, ne_eq, reduceCtorEq, not_false_eq_true, not_true_eq_false,
      true_and, and_true, false_and, and_false, eq_self_iff_true, not_true, not_false_iff,
      if_true, if_false, ite_true, ite_false] <;>
    first
    | exact ⟨h1, h2, h3⟩
    | (split_ifs with hguard
       · apply sideInv_gen <;> simp <;> omega
       · exact ⟨h1, h2, h3⟩)
    | (apply sideInv_gen <;> simp <;> omega)


theorem runEvents_sideInv (evs : List (InputEvent × (Nat → Nat))) :
    ∀ st : AppState, sideInv st → sideInv (runEvents evs st) := by
  induction evs with
  | nil => intro st h; exact h
  | cons e l ihl =>
    intro st h
    unfold runEvents
    rw [List.foldl_cons]
    exact ihl _ (handle_input_sideInv e.1 st e.2 h)

theorem handle_up_at_max (st : AppState) (R : Nat → Nat) (h : st.side_length = 63) :
    (handle_input ⟨InputKey.up, InputType.press⟩ st R).2 = st := by
  unfold handle_input
  simp [h]

theorem handle_down_at_min (st : AppState) (R : Nat → Nat) (h : st.side_length = 5) :
    (handle_input ⟨InputKey.down, InputType.press⟩ st R).2 = st := by
  unfold handle_input
  simp [h]

/-- C3, confirmed.  Starting from the initial state (side 5), every
sequence of input events keeps `side_length` inside `[5, 63]` and odd
(hence reachable from 5 by steps of 2); repeated Up presses at the
maximum leave it at 63 and repeated Down presses at the minimum leave it
at 5. -/
theorem side_length_invariant :
    (∀ evs, sideInv (runEvents evs initState)) ∧
    (∀ (st : AppState) (R : Nat → Nat) (n : Nat), st.side_length = 63 →
      (runEvents (List.replicate n (⟨InputKey.up, InputType.press⟩, R)) st).side_length = 63) ∧
    (∀ (st : AppState) (R : Nat → Nat) (n : Nat), st.side_length = 5 →
      (runEvents (List.replicate n (⟨InputKey.down, InputType.press⟩, R)) st).side_length = 5) := by
  refine ⟨?_, ?_, ?_⟩
  · intro evs
    exact runEvents_sideInv evs initState ⟨by decide, by decide, 2, by decide⟩
  · intro st R n
    induction n generalizing st with
    | zero => intro h; exact h
    | succ m ihm =>
      intro h
      rw [List.replicate_succ]
      unfold runEvents
      rw [List.foldl_cons, handle_up_at_max st R h]
      exact ihm st h
  · intro st R n
    induction n generalizing st with
    | zero => intro h; exact h
    | succ m ihm =>
      intro h
      rw [List.replicate_succ]
      unfold runEvents
      rw [List.foldl_cons, handle_down_at_min st R h]
      exact ihm st h

/-- Witness for `side_length_invariant`. -/
theorem side_length_invariant_witness :
    sideInv (runEvents [] initState) ∧
    ((⟨63, 0, false, true, []⟩ : AppState).side_length = 63 ∧
      (runEvents (List.replicate 2 (⟨InputKey.up, InputType.press⟩, fun _ => 0))
        (⟨63, 0, false, true, []⟩ : AppState)).side_length = 63) ∧
    (initState.side_length = 5 ∧
      (runEvents (List.replicate 2 (⟨InputKey.down, InputType.press⟩, fun _ => 0))
        initState).side_length = 5) :=
  ⟨side_length_invariant.1 [],
   ⟨rfl, side_length_invariant.2.1 _ _ 2 rfl⟩,
   ⟨rfl, side_length_invariant.2.2 _ _ 2 rfl⟩⟩


/-- C9, counterexample to the claim as stated: a Back key press changes
the state (it clears `running`, which makes the event loop exit), yet
`handle_input` returns false, so no redraw is scheduled. -/
theorem back_no_redraw_cex :
    (handle_input ⟨InputKey.back, InputType.press⟩ initState (fun _ => 0)).1 = false ∧
    (handle_input ⟨InputKey.back, InputType.press⟩ initState (fun _ => 0)).2 ≠ initState := by
  decide

/-- C9, amended: the input handler returns true exactly when the event
changed the application state apart from the `running` flag; a Back
press (or repeat) clears `running` - terminating the event loop - but
returns false, so it schedules no redraw. -/
theorem handle_input_redraw (e : InputEvent) (st : AppState) (R : Nat → Nat) :
    ((handle_input e st R).1 = true ↔
      { (handle_input e st R).2 with running := st.running } ≠ st) ∧
    (e.key = InputKey.back → (e.type = InputType.press ∨ e.type = InputType.rep) →
      (handle_input e st R).2.running = false ∧ (handle_input e st R).1 = false) := by
  have hsideL := fun (st2 : AppState) => (generate_random_pixels_fields R st2).1
  have hnumL := fun (st2 : AppState) => (generate_random_pixels_fields R st2).2.1
  obtain ⟨k, ty⟩ := e
  obtain ⟨sl, np, sc, ru, px⟩ := st
  cases ty <;> cases k <;>
    simp only [handle_input, ne_eq, reduceCtorEq, not_false_eq_true, not_true_eq_false,
      true_and, and_true, false_and, and_false, eq_self_iff_true, not_true, not_false_iff,
      if_true, if_false, ite_true, ite_false] <;>
    first
    | (simp
       done)
    | (split_ifs with hguard
       · refine ⟨⟨fun _ heq => ?_, fun _ => by trivial⟩, by simp⟩
         have hs := congrArg AppState.side_length heq
         simp [hsideL] at hs
       · simp)
    | (split_ifs with hguard
       · refine ⟨⟨fun _ heq => ?_, fun _ => by trivial⟩, by simp⟩
         have hn := congrArg AppState.num_random_pixels heq
         simp [hnumL] at hn
       · simp)
    | (refine ⟨⟨fun _ heq => ?_, fun _ => by trivial⟩, by simp⟩
       have hn := congrArg AppState.num_random_pixels heq
       simp [hnumL] at hn)

/-- Witness for `handle_input_redraw` at a Back press on the initial
state. -/
theorem handle_input_redraw_witness :
    (((handle_input ⟨InputKey.back, InputType.press⟩ initState (fun _ => 0)).1 = true ↔
      { (handle_input ⟨InputKey.back, InputType.press⟩ initState (fun _ => 0)).2 with
        running := initState.running } ≠ initState) ∧
     ((handle_input ⟨InputKey.back, InputType.press⟩ initState (fun _ => 0)).2.running = false ∧
      (handle_input ⟨InputKey.back, InputType.press⟩ initState (fun _ => 0)).1 = false)) :=
  ⟨(handle_input_redraw ⟨InputKey.back, InputType.press⟩ initState (fun _ => 0)).1,
   (handle_input_redraw ⟨InputKey.back, InputType.press⟩ initState (fun _ => 0)).2 rfl
     (Or.inl rfl)⟩

theorem getLast?_cons_of_some {α : Type} (b a : α) (l : List α) (h : l.getLast? = some a) :
    (b :: l).getLast? = some a := by
  cases l with
  | nil => simp at h
  | cons c l2 => rw [List.getLast?_cons_cons]; exact h

theorem bresVisitGo_some (x2 y2 dx dy sx sy : Int)
    (hsx : sx = 1 ∨ sx = -1) (hsy : sy = 1 ∨ sy = -1) :
    ∀ (n : Nat) (x y err : Int),
      0 ≤ sx * (x2 - x) → sx * (x2 - x) ≤ dx →
      0 ≤ sy * (y2 - y) → sy * (y2 - y) ≤ dy →
      err = dx - dy + (sx * (x2 - x)) * dy - (sy * (y2 - y)) * dx →
      (sx * (x2 - x)).toNat + (sy * (y2 - y)).toNat < n →
      ∃ l : List Point, bresVisitGo x2 y2 dx dy sx sy n x y err = some l ∧
        l.getLast? = some ⟨x2, y2⟩ := by
  have hsx2 : sx * sx = 1 := by rcases hsx with rfl | rfl <;> norm_num
  have hsy2 : sy * sy = 1 := by rcases hsy with rfl | rfl <;> norm_num
  intro n
  induction n with
  | zero => intro x y err hp0 hpd hq0 hqd herr hn; omega
  | succ m ihm =>
    intro x y err hp0 hpd hq0 hqd herr hn
    by_cases hend : x = x2 ∧ y = y2
    · refine ⟨[⟨x, y⟩], ?_, ?_⟩
      · unfold bresVisitGo
        rw [if_pos hend]
      · rw [hend.1, hend.2]; rfl
    · set p := sx * (x2 - x) with hpdef
      set q := sy * (y2 - y) with hqdef
      have hnz : 0 < p + q := by
        rcases lt_or_eq_of_le hp0 with h | h
        · omega
        · rcases lt_or_eq_of_le hq0 with h2 | h2
          · omega
          · exfalso
            apply hend
            constructor
            · rcases hsx with rfl | rfl <;> simp [hpdef] at h <;> omega
            · rcases hsy with rfl | rfl <;> simp [hqdef] at h2 <;> omega
      have hdx0 : 0 ≤ dx := le_trans hp0 hpd
      have hdy0 : 0 ≤ dy := le_trans hq0 hqd
      have hp' : sx * (x2 - (x + sx)) = p - 1 := by
        rw [show sx * (x2 - (x + sx)) = sx * (x2 - x) - sx * sx by ring, hsx2]
      have hq' : sy * (y2 - (y + sy)) = q - 1 := by
        rw [show sy * (y2 - (y + sy)) = sy * (y2 - y) - sy * sy by ring, hsy2]
      by_cases hxc : 2 * err > -dy <;> by_cases hyc : 2 * err < dx
      · -- both x and y step
        have hp1 : 1 ≤ p := by
          rcases lt_or_eq_of_le hp0 with h | h
          · omega
          · exfalso
            have hq1 : 1 ≤ q := by omega
            have hdxq : dx ≤ q * dx := le_mul_of_one_le_left hdx0 hq1
            rw [← h] at herr
            simp only [zero_mul, add_zero, sub_zero] at herr
            linarith
        have hq1 : 1 ≤ q := by
          rcases lt_or_eq_of_le hq0 with h | h
          · omega
          · exfalso
            have hdyp : dy ≤ p * dy := le_mul_of_one_le_left hdy0 hp1
            rw [← h] at herr
            simp only [zero_mul, add_zero, sub_zero] at herr
            linarith
        obtain ⟨l, hl, hlast⟩ := ihm (x + sx) (y + sy) (err - dy + dx)
          (by rw [hp']; omega) (by rw [hp']; omega)
          (by rw [hq']; omega) (by rw [hq']; omega)
          (by rw [hp', hq', herr]; ring)
          (by rw [hp', hq']; omega)
        refine ⟨⟨x, y⟩ :: l, ?_, getLast?_cons_of_some _ _ _ hlast⟩
        unfold bresVisitGo
        rw [if_neg hend]
        simp only [if_pos hxc, if_pos hyc]
        rw [hl]
        rfl
      · -- only x steps
        have hp1 : 1 ≤ p := by
          rcases lt_or_eq_of_le hp0 with h | h
          · omega
          · exfalso
            rcases lt_or_eq_of_le hq0 with h2 | h2
            · have hdxq : dx ≤ q * dx := le_mul_of_one_le_left hdx0 (by omega)
              rw [← h] at herr
              simp only [zero_mul, add_zero, sub_zero] at herr
              linarith
            · omega
        obtain ⟨l, hl, hlast⟩ := ihm (x + sx) y (err - dy)
          (by rw [hp']; omega) (by rw [hp']; omega)
          hq0 hqd
          (by rw [hp', herr]; ring)
          (by rw [hp']; omega)
        refine ⟨⟨x, y⟩ :: l, ?_, getLast?_cons_of_some _ _ _ hlast⟩
        unfold bresVisitGo
        rw [if_neg hend]
        simp only [if_pos hxc, if_neg hyc]
        rw [hl]
        rfl
      · -- only y steps
        have hq1 : 1 ≤ q := by
          rcases lt_or_eq_of_le hq0 with h | h
          · omega
          · exfalso
            rcases lt_or_eq_of_le hp0 with h2 | h2
            · have hdyp : dy ≤ p * dy := le_mul_of_one_le_left hdy0 (by omega)
              rw [← h] at herr
              simp only [zero_mul, add_zero, sub_zero] at herr
              linarith
            · omega
        obtain ⟨l, hl, hlast⟩ := ihm x (y + sy) (err + dx)
          hp0 hpd
          (by rw [hq']; omega) (by rw [hq']; omega)
          (by rw [hq', herr]; ring)
          (by rw [hq']; omega)
        refine ⟨⟨x, y⟩ :: l, ?_, getLast?_cons_of_some _ _ _ hlast⟩
        unfold bresVisitGo
        rw [if_neg hend]
        simp only [if_neg hxc, if_pos hyc]
        rw [hl]
        rfl
      · -- no step possible: contradiction
        exfalso
        have h1 : 2 * err ≤ -dy := by omega
        have h2 : dx ≤ 2 * err := by omega
        have : dx = 0 ∧ dy = 0 := by omega
        omega

theorem dashDotFilter_cons (start : Nat) (a : Point) (l : List Point) :
    dashDotFilter start (a :: l) =
      (if DASH_DOT_PATTERN.getD (start % 5) 0 = 1 then [a] else []) ++
        dashDotFilter (start + 1) l := rfl

theorem dashDotFilter_congr : ∀ (l : List Point) (s1 s2 : Nat), s1 % 5 = s2 % 5 →
    dashDotFilter s1 l = dashDotFilter s2 l := by
  intro l
  induction l with
  | nil => intro s1 s2 h; rfl
  | cons a t iht =>
    intro s1 s2 h
    unfold dashDotFilter
    rw [h, iht (s1 + 1) (s2 + 1) (by omega)]

theorem dashDotGo_eq (x2 y2 dx dy sx sy : Int) :
    ∀ (n : Nat) (x y err : Int) (pidx : Nat), pidx < 5 →
      dashDotGo x2 y2 dx dy sx sy n x y err pidx =
        Option.map (dashDotFilter pidx) (bresVisitGo x2 y2 dx dy sx sy n x y err) := by
  intro n
  induction n with
  | zero => intro x y err pidx hlt; rfl
  | succ m ihm =>
    intro x y err pidx hlt
    have hmod : pidx % 5 = pidx := Nat.mod_eq_of_lt hlt
    by_cases hend : x = x2 ∧ y = y2
    · dsimp only [dashDotGo, bresVisitGo]
      rw [if_pos hend, if_pos hend]
      simp only [Option.map_some']
      rw [dashDotFilter_cons, hmod]
      simp
      rfl
    · dsimp only [dashDotGo, bresVisitGo]
      rw [if_neg hend, if_neg hend]
      rw [ihm (if 2 * err > -dy then x + sx else x) (if 2 * err < dx then y + sy else y)
          (if 2 * err < dx then (if 2 * err > -dy then err - dy else err) + dx
            else (if 2 * err > -dy then err - dy else err))
          ((pidx + 1) % 5) (Nat.mod_lt _ (by norm_num))]
      generalize bresVisitGo x2 y2 dx dy sx sy m (if 2 * err > -dy then x + sx else x)
          (if 2 * err < dx then y + sy else y)
          (if 2 * err < dx then (if 2 * err > -dy then err - dy else err) + dx
            else (if 2 * err > -dy then err - dy else err)) = r
      cases r with
      | none => rfl
      | some l =>
        simp only [Option.map_some']
        rw [dashDotFilter_cons, hmod,
          dashDotFilter_congr l (pidx + 1) ((pidx + 1) % 5) (by omega)]

/-- C1, confirmed.  The dash-dot drawer draws exactly the pixels of the
Bresenham visited sequence whose index (counted from 0 at the start
point, wrapping modulo 5) selects a `1` in the pattern `[1,0,1,1,0]`;
drawing from `(0,0)` to `(4,0)` visits `x = 0..4` with pattern
draw, skip, draw, draw, skip; and a degenerate line draws its single
pixel (the pattern's first element is 1). -/
theorem dash_dot_line_pattern :
    (∀ x1 y1 x2 y2 : Int, canvas_draw_line_dash_dot x1 y1 x2 y2 =
      Option.map (dashDotFilter 0) (bresenhamVisited x1 y1 x2 y2)) ∧
    bresenhamVisited 0 0 4 0 =
      some [⟨0, 0⟩, ⟨1, 0⟩, ⟨2, 0⟩, ⟨3, 0⟩, ⟨4, 0⟩] ∧
    canvas_draw_line_dash_dot 0 0 4 0 = some [⟨0, 0⟩, ⟨2, 0⟩, ⟨3, 0⟩] ∧
    (∀ x y : Int, canvas_draw_line_dash_dot x y x y = some [⟨x, y⟩]) := by
  refine ⟨?_, by decide, by decide, ?_⟩
  · intro x1 y1 x2 y2
    dsimp only [canvas_draw_line_dash_dot, bresenhamVisited]
    exact dashDotGo_eq x2 y2 |x2 - x1| |y2 - y1| (if x1 < x2 then 1 else -1)
      (if y1 < y2 then 1 else -1) (lineFuel x1 y1 x2 y2) x1 y1 (|x2 - x1| - |y2 - y1|)
      0 (by norm_num)
  · intro x y
    dsimp only [canvas_draw_line_dash_dot, lineFuel]
    rw [show x - x = 0 by ring, show y - y = 0 by ring]
    dsimp only [dashDotGo]
    simp [DASH_DOT_PATTERN]

/-- C10, confirmed.  The Bresenham loop of the dash-dot drawer
terminates for every pair of integer endpoints: within
`|x2-x1| + |y2-y1| + 1` iterations the visited sequence exists (the fuel
is never exhausted), it ends exactly at `(x2, y2)`, and the drawer
itself returns its pixel list (the `while(true)` loop breaks). -/
theorem bresenham_terminates (x1 y1 x2 y2 : Int) :
    ∃ l : List Point, bresenhamVisited x1 y1 x2 y2 = some l ∧
      l.getLast? = some ⟨x2, y2⟩ ∧
      canvas_draw_line_dash_dot x1 y1 x2 y2 = some (dashDotFilter 0 l) := by
  have hsx : (if x1 < x2 then (1 : Int) else -1) = 1 ∨
      (if x1 < x2 then (1 : Int) else -1) = -1 := by split_ifs <;> simp
  have hsy : (if y1 < y2 then (1 : Int) else -1) = 1 ∨
      (if y1 < y2 then (1 : Int) else -1) = -1 := by split_ifs <;> simp
  have habsx : (if x1 < x2 then (1 : Int) else -1) * (x2 - x1) = |x2 - x1| := by
    split_ifs with h
    · rw [one_mul, abs_of_nonneg (by omega)]
    · rw [abs_of_nonpos (by omega)]; ring
  have habsy : (if y1 < y2 then (1 : Int) else -1) * (y2 - y1) = |y2 - y1| := by
    split_ifs with h
    · rw [one_mul, abs_of_nonneg (by omega)]
    · rw [abs_of_nonpos (by omega)]; ring
  obtain ⟨l, hl, hlast⟩ := bresVisitGo_some x2 y2 |x2 - x1| |y2 - y1|
    (if x1 < x2 then 1 else -1) (if y1 < y2 then 1 else -1) hsx hsy
    (lineFuel x1 y1 x2 y2) x1 y1 (|x2 - x1| - |y2 - y1|)
    (by rw [habsx]; exact abs_nonneg _) (by rw [habsx])
    (by rw [habsy]; exact abs_nonneg _) (by rw [habsy])
    (by rw [habsx, habsy]; ring)
    (by
      rw [habsx, habsy]
      unfold lineFuel
      rw [Int.abs_eq_natAbs, Int.abs_eq_natAbs]
      omega)
  refine ⟨l, hl, hlast, ?_⟩
  dsimp only [canvas_draw_line_dash_dot]
  rw [dashDotGo_eq x2 y2 |x2 - x1| |y2 - y1| (if x1 < x2 then 1 else -1)
    (if y1 < y2 then 1 else -1) (lineFuel x1 y1 x2 y2) x1 y1 (|x2 - x1| - |y2 - y1|)
    0 (by norm_num)]
  have hl2 : bresVisitGo x2 y2 |x2 - x1| |y2 - y1| (if x1 < x2 then 1 else -1)
      (if y1 < y2 then 1 else -1) (lineFuel x1 y1 x2 y2) x1 y1 (|x2 - x1| - |y2 - y1|)
      = some l := hl
  rw [hl2]
  rfl

end KarlEido
